import Mathlib

/-!
Verification of the `base_uom_converter` Odoo addon
(`src/base_uom_converter/models/uom_converter.py`).

The core logic is `UomConverter.convert`: normalize a quantity into the
converter's source unit (via the external unit catalog's
`_compute_quantity`), select the scale line with the smallest `max_qty`
that is `>=` the normalized quantity, apply the affine transform
`quantity * coefficient + constant`, denormalize into the requested
result unit, and apply the configured rounding method.

Shallow embedding choices:
* quantities, coefficients and constants are rationals (`ℚ`);
* a unit of measure (`uom.uom` record) is reduced to the two attributes
  the code reads: its database id and its category id;
* the external conversion service `uom._compute_quantity(qty, to_uom)`
  is an explicit function parameter `svc : Uom → ℚ → Uom → ℚ`
  (from-unit, quantity, to-unit);
* `ValidationError` outcomes become an error enumeration in `Except`;
* Python's `math.ceil` / `math.floor` / built-in `round` (banker's
  rounding, ties to even) are modelled on `ℚ`;
* in addition to its result, the embedded `convert` pipeline counts the
  number of calls made to the external conversion service, so that the
  frame/effect claim about external calls can be stated.
-/

/-- The two attributes of a `uom.uom` record that
`UomConverter.convert` reads: the record id and its category id. -/
structure Uom where
  id : ℕ
  category_id : ℕ
  deriving DecidableEq, Repr

/-- A `uom.converter.line` record: `max_qty`, `coefficient`, `constant`
(fields of `UomConverterLine`, lines 148-171 of the source). -/
structure UomConverterLine where
  max_qty : ℚ
  coefficient : ℚ
  constant : ℚ
  deriving DecidableEq, Repr

/-- The `round_method` selection field of `uom.converter`
(lines 37-43): "none", "ceil", "round" (normal rounding), "floor". -/
inductive RoundMethod where
  | none
  | ceil
  | round
  | floor
  deriving DecidableEq, Repr

/-- A `uom.converter` record reduced to the fields `convert` reads:
`from_uom_id`, `to_uom_id`, `line_ids`, `round_method`. -/
structure UomConverter where
  from_uom_id : Uom
  to_uom_id : Uom
  line_ids : List UomConverterLine
  round_method : RoundMethod
  deriving DecidableEq

/-- The three `ValidationError` outcomes of `convert`:
incompatible input-unit category (lines 76-85), incompatible
output-unit category (lines 95-105), quantity out of the configured
scale (lines 112-122). -/
inductive ConvError where
  | incompatibleInputCategory
  | incompatibleOutputCategory
  | quantityOutOfRange
  deriving DecidableEq, Repr

/-- Python's built-in `round` on an exact rational: round half to even
(banker's rounding), as used at line 132 of the source. -/
def pyRound (x : ℚ) : ℤ :=
  let f := ⌊x⌋
  let frac := x - (f : ℚ)
  if frac < 1/2 then f
  else if 1/2 < frac then f + 1
  else if f % 2 = 0 then f else f + 1

/-- The rounding step of `convert` (lines 127-133): dispatch on
`round_method`; `math.ceil`, `math.floor` and `round` all return
integers, `"none"` leaves the value untouched. -/
def applyRounding : RoundMethod → ℚ → ℚ
  | RoundMethod.none, x => x
  | RoundMethod.ceil, x => (⌈x⌉ : ℚ)
  | RoundMethod.round, x => (pyRound x : ℚ)
  | RoundMethod.floor, x => (⌊x⌋ : ℚ)

/-- The scale-line query of lines 106-110:
`line_ids.search([("uom_converter_id","=",self.id),("max_qty",">=",quantity)], order="max_qty", limit=1)`.
Among the converter's lines with `max_qty >= q`, return one with the
minimal `max_qty` (the first such line in list order when several lines
share the minimal bound), or none when no line qualifies. -/
def searchLine (q : ℚ) : List UomConverterLine → Option UomConverterLine
  | [] => Option.none
  | l :: ls =>
    match searchLine q ls with
    | Option.none => if q ≤ l.max_qty then some l else Option.none
    | some b => if q ≤ l.max_qty ∧ l.max_qty ≤ b.max_qty then some l else some b

/-- Input-unit handling of `convert`, lines 72-90: default a missing
`uom_qty` to `from_uom_id`; reject a unit of a different category;
convert the quantity into `from_uom_id` when the supplied unit differs
from it. The returned `ℕ` counts external-service calls (0 or 1). -/
def normalizeInput (svc : Uom → ℚ → Uom → ℚ) (c : UomConverter) (quantity : ℚ)
    (uom_qty : Option Uom) : Except ConvError (ℚ × ℕ) :=
  match uom_qty with
  | Option.none => Except.ok (quantity, 0)
  | some u =>
    if u.category_id ≠ c.from_uom_id.category_id then
      Except.error ConvError.incompatibleInputCategory
    else if u.id ≠ c.from_uom_id.id then
      Except.ok (svc u quantity c.from_uom_id, 1)
    else
      Except.ok (quantity, 0)

/-- Output-unit handling of `convert`, lines 91-105: default a missing
`result_uom` to `to_uom_id`; reject a unit of a different category. -/
def checkOutput (c : UomConverter) (result_uom : Option Uom) : Except ConvError Uom :=
  match result_uom with
  | Option.none => Except.ok c.to_uom_id
  | some u =>
    if u.category_id ≠ c.to_uom_id.category_id then
      Except.error ConvError.incompatibleOutputCategory
    else
      Except.ok u

/-- Denormalization step of `convert`, lines 125-126: convert the
result from `to_uom_id` into `result_uom` when they differ. The `ℕ`
counts external-service calls (0 or 1). -/
def denormalize (svc : Uom → ℚ → Uom → ℚ) (c : UomConverter) (result : ℚ)
    (result_uom : Uom) : ℚ × ℕ :=
  if result_uom.id ≠ c.to_uom_id.id then (svc c.to_uom_id result result_uom, 1)
  else (result, 0)

/-- The `convert` pipeline up to and including denormalization
(lines 72-126), before the rounding step: either a `ValidationError`
or the unrounded result, paired with the total number of calls made to
the external conversion service. -/
def UomConverter.convertUnrounded (svc : Uom → ℚ → Uom → ℚ) (c : UomConverter)
    (quantity : ℚ) (uom_qty result_uom : Option Uom) : Except ConvError ℚ × ℕ :=
  match normalizeInput svc c quantity uom_qty with
  | Except.error e => (Except.error e, 0)
  | Except.ok (q, n1) =>
    match checkOutput c result_uom with
    | Except.error e => (Except.error e, n1)
    | Except.ok rUom =>
      match searchLine q c.line_ids with
      | Option.none => (Except.error ConvError.quantityOutOfRange, n1)
      | some line =>
        ((denormalize svc c (q * line.coefficient + line.constant) rUom).1 |> Except.ok,
          n1 + (denormalize svc c (q * line.coefficient + line.constant) rUom).2)

/-- The full `convert` pipeline with the final rounding step
(lines 127-133) applied, still paired with the service-call count. -/
def UomConverter.convertCore (svc : Uom → ℚ → Uom → ℚ) (c : UomConverter)
    (quantity : ℚ) (uom_qty result_uom : Option Uom) : Except ConvError ℚ × ℕ :=
  ((c.convertUnrounded svc quantity uom_qty result_uom).1.map (applyRounding c.round_method),
    (c.convertUnrounded svc quantity uom_qty result_uom).2)

/-- The method `UomConverter.convert` (lines 63-133): the value returned to the
caller (or the `ValidationError` raised). -/
def UomConverter.convert (svc : Uom → ℚ → Uom → ℚ) (c : UomConverter)
    (quantity : ℚ) (uom_qty result_uom : Option Uom) : Except ConvError ℚ :=
  (c.convertCore svc quantity uom_qty result_uom).1

/-- A trivial stand-in conversion service, used for concrete examples
in which the service is never consulted. -/
def idSvc : Uom → ℚ → Uom → ℚ := fun _ q _ => q

/-- The gram unit of the spec's flour→eggs example. -/
def gram : Uom := ⟨1, 10⟩

/-- A second unit in the mass category. -/
def kilogram : Uom := ⟨2, 10⟩

/-- The egg unit of the spec's flour→eggs example. -/
def egg : Uom := ⟨3, 20⟩

/-- A unit in a third, unrelated category. -/
def liter : Uom := ⟨4, 30⟩

/-- The single scale line of the flour→eggs example:
`max_qty = 100000`, `coefficient = 0.01`, `constant = 0`. -/
def flourLine : UomConverterLine := ⟨100000, 1/100, 0⟩

/-- The flour→eggs converter of the spec's examples, parameterised by
the rounding method. -/
def flourEggs (m : RoundMethod) : UomConverter := ⟨gram, egg, [flourLine], m⟩

/-- Evaluation helper: on the flour→eggs converter with no unit
arguments, `convert` reduces to the affine transform on the single
scale line followed by the rounding step, for any in-range quantity. -/
theorem flourEggs_convert_eval (m : RoundMethod) (q : ℚ) (hq : q ≤ 100000) :
    (flourEggs m).convert idSvc q Option.none Option.none
      = Except.ok (applyRounding m (q * (1/100) + 0)) := by
  simp only [UomConverter.convert, UomConverter.convertCore, UomConverter.convertUnrounded,
    normalizeInput, checkOutput, searchLine, denormalize, flourEggs, flourLine, gram, egg]
  rw [if_pos hq]
  simp [Except.map]

/-- The lookup `searchLine` returns `none` exactly when every line's `max_qty`
is strictly below the query quantity. -/
theorem searchLine_eq_none_iff (q : ℚ) :
    ∀ ls : List UomConverterLine,
      searchLine q ls = Option.none ↔ ∀ l ∈ ls, l.max_qty < q
  | [] => by simp [searchLine]
  | l :: ls => by
    have ih := searchLine_eq_none_iff q ls
    simp only [searchLine]
    cases h : searchLine q ls with
    | none =>
      have hls : ∀ x ∈ ls, x.max_qty < q := ih.mp h
      by_cases hq : q ≤ l.max_qty
      · rw [if_pos hq]
        simp only [List.mem_cons]
        constructor
        · intro hcontra
          exact absurd hcontra (by simp)
        · intro hall
          exact absurd (hall l (Or.inl rfl)) (not_lt.mpr hq)
      · rw [if_neg hq]
        simp only [List.mem_cons]
        constructor
        · intro _ x hx
          rcases hx with rfl | hx
          · exact lt_of_not_le hq
          · exact hls x hx
        · intro _
          trivial
    | some b =>
      dsimp only
      have hb : ¬ searchLine q ls = Option.none := by simp [h]
      have hex : ¬ ∀ x ∈ ls, x.max_qty < q := fun hc => hb (ih.mpr hc)
      by_cases hc : q ≤ l.max_qty ∧ l.max_qty ≤ b.max_qty
      · rw [if_pos hc]
        simp only [List.mem_cons]
        constructor
        · intro hcontra
          exact absurd hcontra (by simp)
        · intro hall
          exact absurd (fun x hx => hall x (Or.inr hx)) hex
      · rw [if_neg hc]
        simp only [List.mem_cons]
        constructor
        · intro hcontra
          exact absurd hcontra (by simp)
        · intro hall
          exact absurd (fun x hx => hall x (Or.inr hx)) hex

/-- Full characterisation of a successful `searchLine` lookup: the
returned line belongs to the list, its bound covers the query, and its
bound is minimal among all covering lines. -/
theorem searchLine_spec (q : ℚ) :
    ∀ ls : List UomConverterLine, ∀ b : UomConverterLine,
      searchLine q ls = some b →
      b ∈ ls ∧ q ≤ b.max_qty ∧
        ∀ l ∈ ls, q ≤ l.max_qty → b.max_qty ≤ l.max_qty
  | [], b => by simp [searchLine]
  | l :: ls, b => by
    have ih := searchLine_spec q ls
    simp only [searchLine]
    cases h : searchLine q ls with
    | none =>
      have hls : ∀ x ∈ ls, x.max_qty < q := (searchLine_eq_none_iff q ls).mp h
      by_cases hq : q ≤ l.max_qty
      · rw [if_pos hq]
        intro hsome
        have hbl : b = l := by
          injection hsome with h1
          exact h1.symm
        subst hbl
        refine ⟨List.mem_cons_self _ _, hq, ?_⟩
        intro x hx hxq
        rcases List.mem_cons.mp hx with rfl | hx
        · exact le_refl _
        · exact absurd hxq (not_le.mpr (hls x hx))
      · rw [if_neg hq]
        intro hsome
        exact absurd hsome (by simp)
    | some b' =>
      dsimp only
      have ihb := ih b' h
      by_cases hc : q ≤ l.max_qty ∧ l.max_qty ≤ b'.max_qty
      · rw [if_pos hc]
        intro hsome
        have hbl : b = l := by
          injection hsome with h1
          exact h1.symm
        subst hbl
        refine ⟨List.mem_cons_self _ _, hc.1, ?_⟩
        intro x hx hxq
        rcases List.mem_cons.mp hx with rfl | hx
        · exact le_refl _
        · exact le_trans hc.2 (ihb.2.2 x hx hxq)
      · rw [if_neg hc]
        intro hsome
        have hbb : b = b' := by
          injection hsome with h1
          exact h1.symm
        subst hbb
        refine ⟨List.mem_cons_of_mem _ ihb.1, ihb.2.1, ?_⟩
        intro x hx hxq
        rcases List.mem_cons.mp hx with rfl | hx
        · have : ¬ x.max_qty ≤ b.max_qty := fun hle => hc ⟨hxq, hle⟩
          exact le_of_lt (lt_of_not_le this)
        · exact ihb.2.2 x hx hxq

/-- Rounding with `pyRound` is the identity on integers. -/
theorem pyRound_intCast (n : ℤ) : pyRound (n : ℚ) = n := by
  simp only [pyRound, Int.floor_intCast, sub_self]
  norm_num

/-- For the three integral rounding methods, `applyRounding` lands in
the integers. -/
theorem applyRounding_integral (m : RoundMethod) (hm : m ≠ RoundMethod.none) (x : ℚ) :
    ∃ k : ℤ, applyRounding m x = (k : ℚ) := by
  cases m with
  | none => exact absurd rfl hm
  | ceil => exact ⟨⌈x⌉, rfl⟩
  | round => exact ⟨pyRound x, rfl⟩
  | floor => exact ⟨⌊x⌋, rfl⟩

/-- A successful `normalizeInput` made at most one external call. -/
theorem normalizeInput_calls_le_one (svc : Uom → ℚ → Uom → ℚ) (c : UomConverter)
    (quantity : ℚ) (uq : Option Uom) (q : ℚ) (n : ℕ)
    (h : normalizeInput svc c quantity uq = Except.ok (q, n)) : n ≤ 1 := by
  cases uq with
  | none =>
    simp only [normalizeInput, Except.ok.injEq, Prod.mk.injEq] at h
    omega
  | some u =>
    simp only [normalizeInput] at h
    split_ifs at h
    all_goals simp only [Except.ok.injEq, Prod.mk.injEq] at h
    all_goals omega

/-- The only error `normalizeInput` produces is the input-category
mismatch. -/
theorem normalizeInput_error_eq (svc : Uom → ℚ → Uom → ℚ) (c : UomConverter)
    (quantity : ℚ) (uq : Option Uom) (e : ConvError)
    (h : normalizeInput svc c quantity uq = Except.error e) :
    e = ConvError.incompatibleInputCategory := by
  cases uq with
  | none => simp [normalizeInput] at h
  | some u =>
    simp only [normalizeInput] at h
    split_ifs at h
    all_goals simp_all

/-- The step `denormalize` makes at most one external call. -/
theorem denormalize_calls_le_one (svc : Uom → ℚ → Uom → ℚ) (c : UomConverter)
    (r : ℚ) (ru : Uom) : (denormalize svc c r ru).2 ≤ 1 := by
  simp only [denormalize]
  split_ifs <;> simp

/-- C1: for every converter and normalized quantity, the scale-line
lookup used by `convert` (lines 106-110) returns a line of the
converter whose `max_qty` covers the quantity and is minimal among all
covering lines: no line with a smaller qualifying `max_qty` is ever
passed over in favour of one with a larger `max_qty`. -/
theorem convert_selects_minimal_line (c : UomConverter) (q : ℚ) (b : UomConverterLine)
    (h : searchLine q c.line_ids = some b) :
    b ∈ c.line_ids ∧ q ≤ b.max_qty ∧
      ∀ l ∈ c.line_ids, q ≤ l.max_qty → b.max_qty ≤ l.max_qty :=
  searchLine_spec q c.line_ids b h

/-- Witness for C1 on the flour→eggs converter at quantity 2. -/
theorem convert_selects_minimal_line_witness :
    flourLine ∈ (flourEggs RoundMethod.ceil).line_ids ∧ (2:ℚ) ≤ flourLine.max_qty ∧
      ∀ l ∈ (flourEggs RoundMethod.ceil).line_ids,
        (2:ℚ) ≤ l.max_qty → flourLine.max_qty ≤ l.max_qty :=
  convert_selects_minimal_line (flourEggs RoundMethod.ceil) 2 flourLine rfl

/-- A two-line converter used to witness the monotonicity claim. -/
def lineTen : UomConverterLine := ⟨10, 1, 0⟩

/-- Second scale line of the two-line witness converter. -/
def lineTwenty : UomConverterLine := ⟨20, 2, 0⟩

/-- Converter with two scale lines, for concrete witnesses. -/
def twoLineConv : UomConverter := ⟨gram, egg, [lineTen, lineTwenty], RoundMethod.none⟩

/-- C5: bracket selection is monotone: for two quantities `q1 < q2` for
which the lookup of `convert` succeeds, the `max_qty` of the line
selected for `q2` is never smaller than the one selected for `q1`. -/
theorem convert_bracket_selection_monotone (c : UomConverter) (q1 q2 : ℚ)
    (b1 b2 : UomConverterLine) (hlt : q1 < q2)
    (h1 : searchLine q1 c.line_ids = some b1)
    (h2 : searchLine q2 c.line_ids = some b2) :
    b1.max_qty ≤ b2.max_qty := by
  have s1 := searchLine_spec q1 c.line_ids b1 h1
  have s2 := searchLine_spec q2 c.line_ids b2 h2
  exact s1.2.2 b2 s2.1 (le_trans (le_of_lt hlt) s2.2.1)

/-- Witness for C5 on the two-line converter at quantities 1 and 15. -/
theorem convert_bracket_selection_monotone_witness :
    lineTen.max_qty ≤ lineTwenty.max_qty :=
  convert_bracket_selection_monotone twoLineConv 1 15 lineTen lineTwenty
    (by norm_num) rfl rfl

/-- C6: every rounding method of the converter is idempotent: applying
it twice yields the same result as applying it once. -/
theorem applyRounding_idempotent (m : RoundMethod) (x : ℚ) :
    applyRounding m (applyRounding m x) = applyRounding m x := by
  cases m with
  | none => rfl
  | ceil => simp [applyRounding, Int.ceil_intCast]
  | round => simp [applyRounding, pyRound_intCast]
  | floor => simp [applyRounding, Int.floor_intCast]

/-- C8: `convert` is a pure read of the converter and its lines (it is
a function of an immutable snapshot and returns only the numeric
outcome), and every invocation performs at most two calls into the
external unit-conversion service: at most one while normalizing the
input quantity and at most one while denormalizing the result. -/
theorem convert_at_most_two_service_calls (svc : Uom → ℚ → Uom → ℚ) (c : UomConverter)
    (quantity : ℚ) (uom_qty result_uom : Option Uom) :
    (c.convertCore svc quantity uom_qty result_uom).2 ≤ 2 := by
  simp only [UomConverter.convertCore, UomConverter.convertUnrounded]
  cases hn : normalizeInput svc c quantity uom_qty with
  | error e => simp
  | ok p =>
    obtain ⟨q, n1⟩ := p
    dsimp only
    have hn1 := normalizeInput_calls_le_one svc c quantity uom_qty q n1 hn
    cases hc : checkOutput c result_uom with
    | error e =>
      dsimp only
      omega
    | ok rUom =>
      dsimp only
      cases hs : searchLine q c.line_ids with
      | none =>
        dsimp only
        omega
      | some line =>
        have hd := denormalize_calls_le_one svc c (q * line.coefficient + line.constant) rUom
        dsimp only
        omega

/-- C2: once the unit checks pass and the quantity has been normalized
to `qn`, `convert` returns a (finite, exact rational) value whenever
some scale line of the converter has `max_qty ≥ qn`, and fails with the
quantity-out-of-range validation error — returning no partial result —
whenever every configured line's `max_qty` is below `qn`. -/
theorem convert_in_range_ok_out_of_range_error (svc : Uom → ℚ → Uom → ℚ)
    (c : UomConverter) (quantity qn : ℚ) (n1 : ℕ)
    (uom_qty result_uom : Option Uom) (r : Uom)
    (hn : normalizeInput svc c quantity uom_qty = Except.ok (qn, n1))
    (hr : checkOutput c result_uom = Except.ok r) :
    ((∃ l ∈ c.line_ids, qn ≤ l.max_qty) →
      ∃ x, c.convert svc quantity uom_qty result_uom = Except.ok x) ∧
    ((∀ l ∈ c.line_ids, l.max_qty < qn) →
      c.convert svc quantity uom_qty result_uom
        = Except.error ConvError.quantityOutOfRange) := by
  simp only [UomConverter.convert, UomConverter.convertCore, UomConverter.convertUnrounded,
    hn, hr]
  constructor
  · intro hex
    cases hs : searchLine qn c.line_ids with
    | none =>
      exfalso
      obtain ⟨l, hl, hql⟩ := hex
      exact absurd ((searchLine_eq_none_iff qn c.line_ids).mp hs l hl) (not_lt.mpr hql)
    | some line =>
      dsimp only
      exact ⟨_, rfl⟩
  · intro hall
    have hs : searchLine qn c.line_ids = Option.none :=
      (searchLine_eq_none_iff qn c.line_ids).mpr hall
    rw [hs]
    rfl

/-- Witness for C2 on the flour→eggs converter at quantity 101. -/
theorem convert_in_range_ok_out_of_range_error_witness :
    ((∃ l ∈ (flourEggs RoundMethod.ceil).line_ids, (101:ℚ) ≤ l.max_qty) →
      ∃ x, (flourEggs RoundMethod.ceil).convert idSvc 101 Option.none Option.none
        = Except.ok x) ∧
    ((∀ l ∈ (flourEggs RoundMethod.ceil).line_ids, l.max_qty < (101:ℚ)) →
      (flourEggs RoundMethod.ceil).convert idSvc 101 Option.none Option.none
        = Except.error ConvError.quantityOutOfRange) :=
  convert_in_range_ok_out_of_range_error idSvc (flourEggs RoundMethod.ceil)
    101 101 0 Option.none Option.none egg rfl rfl

/-- C3: whenever a supplied input unit's category differs from the
source unit's category, or a supplied output unit's category differs
from the destination unit's category, `convert` fails with one of the
two incompatible-category validation errors, regardless of the
quantity. -/
theorem convert_category_mismatch_rejected (svc : Uom → ℚ → Uom → ℚ)
    (c : UomConverter) (quantity : ℚ) (uom_qty result_uom : Option Uom)
    (h : (∃ u, uom_qty = some u ∧ u.category_id ≠ c.from_uom_id.category_id) ∨
         (∃ r, result_uom = some r ∧ r.category_id ≠ c.to_uom_id.category_id)) :
    c.convert svc quantity uom_qty result_uom
        = Except.error ConvError.incompatibleInputCategory ∨
    c.convert svc quantity uom_qty result_uom
        = Except.error ConvError.incompatibleOutputCategory := by
  rcases h with ⟨u, rfl, hcat⟩ | ⟨r, rfl, hcat⟩
  · left
    simp [UomConverter.convert, UomConverter.convertCore, UomConverter.convertUnrounded,
      normalizeInput, hcat, Except.map]
  · cases hn : normalizeInput svc c quantity uom_qty with
    | error e =>
      left
      rw [normalizeInput_error_eq svc c quantity uom_qty e hn] at hn
      simp [UomConverter.convert, UomConverter.convertCore, UomConverter.convertUnrounded,
        hn, Except.map]
    | ok p =>
      right
      obtain ⟨q, n1⟩ := p
      simp [UomConverter.convert, UomConverter.convertCore, UomConverter.convertUnrounded,
        hn, checkOutput, hcat, Except.map]

/-- Witness for C3: converting with a liter input unit on the
flour→eggs converter is rejected. -/
theorem convert_category_mismatch_rejected_witness :
    (flourEggs RoundMethod.ceil).convert idSvc 5 (some liter) Option.none
        = Except.error ConvError.incompatibleInputCategory ∨
    (flourEggs RoundMethod.ceil).convert idSvc 5 (some liter) Option.none
        = Except.error ConvError.incompatibleOutputCategory :=
  convert_category_mismatch_rejected idSvc (flourEggs RoundMethod.ceil) 5
    (some liter) Option.none (Or.inl ⟨liter, rfl, by decide⟩)

/-- C9: error-check precedence. The input-unit category check comes
first: a mismatching input unit yields the input-category error
whatever the output unit and quantity are. The output-unit category
check comes second: when the input unit is absent or compatible, a
mismatching output unit yields the output-category error whatever the
quantity is — in particular even when the quantity is out of range. -/
theorem convert_error_precedence (svc : Uom → ℚ → Uom → ℚ) (c : UomConverter)
    (quantity : ℚ) :
    (∀ u : Uom, ∀ result_uom : Option Uom,
      u.category_id ≠ c.from_uom_id.category_id →
      c.convert svc quantity (some u) result_uom
        = Except.error ConvError.incompatibleInputCategory) ∧
    (∀ uom_qty : Option Uom, ∀ r : Uom,
      (uom_qty = Option.none ∨
        ∃ u, uom_qty = some u ∧ u.category_id = c.from_uom_id.category_id) →
      r.category_id ≠ c.to_uom_id.category_id →
      c.convert svc quantity uom_qty (some r)
        = Except.error ConvError.incompatibleOutputCategory) := by
  constructor
  · intro u result_uom hcat
    simp [UomConverter.convert, UomConverter.convertCore, UomConverter.convertUnrounded,
      normalizeInput, hcat, Except.map]
  · intro uom_qty r hin hcat
    rcases hin with rfl | ⟨u, rfl, hu⟩
    · simp [UomConverter.convert, UomConverter.convertCore, UomConverter.convertUnrounded,
        normalizeInput, checkOutput, hcat, Except.map]
    · by_cases hid : u.id = c.from_uom_id.id <;>
        simp [UomConverter.convert, UomConverter.convertCore, UomConverter.convertUnrounded,
          normalizeInput, checkOutput, hcat, hu, hid, Except.map]

/-- Witness for C9: a liter input unit wins over a simultaneously
mismatching liter output unit, and a liter output unit is reported even
for an out-of-range quantity. -/
theorem convert_error_precedence_witness :
    ((flourEggs RoundMethod.ceil).convert idSvc 200000 (some liter) (some liter)
        = Except.error ConvError.incompatibleInputCategory) ∧
    ((flourEggs RoundMethod.ceil).convert idSvc 200000 Option.none (some liter)
        = Except.error ConvError.incompatibleOutputCategory) :=
  ⟨(convert_error_precedence idSvc (flourEggs RoundMethod.ceil) 200000).1
      liter (some liter) (by decide),
   (convert_error_precedence idSvc (flourEggs RoundMethod.ceil) 200000).2
      Option.none liter (Or.inl rfl) (by decide)⟩

/-- C7: identity unit round-trip. When the supplied input unit is the
converter's source unit and the supplied output unit is its
destination unit, `convert` performs no call into the external
conversion service and behaves exactly as the call with both unit
arguments omitted — for any pair of service implementations, so the
outcome depends only on the selected line's affine transform and the
rounding method. -/
theorem convert_identity_units_noop (svc svcAlt : Uom → ℚ → Uom → ℚ)
    (c : UomConverter) (quantity : ℚ) (u r : Uom)
    (hu : u = c.from_uom_id) (hr : r = c.to_uom_id) :
    c.convertCore svc quantity (some u) (some r)
        = c.convertCore svcAlt quantity Option.none Option.none ∧
    (c.convertCore svc quantity (some u) (some r)).2 = 0 := by
  subst hu
  subst hr
  have h1 : normalizeInput svc c quantity (some c.from_uom_id)
      = Except.ok (quantity, 0) := by simp [normalizeInput]
  have h2 : checkOutput c (some c.to_uom_id) = Except.ok c.to_uom_id := by
    simp [checkOutput]
  have h3 : checkOutput c Option.none = Except.ok c.to_uom_id := rfl
  have h4 : normalizeInput svcAlt c quantity Option.none = Except.ok (quantity, 0) := rfl
  have h5 : ∀ s : Uom → ℚ → Uom → ℚ, ∀ res : ℚ,
      denormalize s c res c.to_uom_id = (res, 0) := by
    intro s res
    simp [denormalize]
  simp only [UomConverter.convertCore, UomConverter.convertUnrounded, h1, h2, h3, h4]
  cases hs : searchLine quantity c.line_ids with
  | none => simp
  | some line => simp [h5]

/-- Witness for C7 on the flour→eggs converter at quantity 101, with
two different stand-in services. -/
theorem convert_identity_units_noop_witness :
    (flourEggs RoundMethod.ceil).convertCore idSvc 101 (some gram) (some egg)
        = (flourEggs RoundMethod.ceil).convertCore (fun _ _ _ => 0) 101
            Option.none Option.none ∧
    ((flourEggs RoundMethod.ceil).convertCore idSvc 101 (some gram) (some egg)).2 = 0 :=
  convert_identity_units_noop idSvc (fun _ _ _ => 0) (flourEggs RoundMethod.ceil)
    101 gram egg rfl rfl

/-- C10: when the rounding method is ceil, floor or round, every value
`convert` returns successfully is an integer; when the rounding method
is "none", `convert` returns the post-denormalization value of the
pipeline unchanged, with no rounding applied. -/
theorem convert_rounding_integrality (svc : Uom → ℚ → Uom → ℚ) (c : UomConverter)
    (quantity : ℚ) (uom_qty result_uom : Option Uom) :
    ((c.round_method = RoundMethod.ceil ∨ c.round_method = RoundMethod.floor ∨
        c.round_method = RoundMethod.round) →
      ∀ x : ℚ, c.convert svc quantity uom_qty result_uom = Except.ok x →
        ∃ k : ℤ, x = (k : ℚ)) ∧
    (c.round_method = RoundMethod.none →
      c.convert svc quantity uom_qty result_uom
        = (c.convertUnrounded svc quantity uom_qty result_uom).1) := by
  constructor
  · intro hm x hx
    have hm' : c.round_method ≠ RoundMethod.none := by
      rcases hm with h | h | h <;> simp [h]
    simp only [UomConverter.convert, UomConverter.convertCore] at hx
    cases hres : (c.convertUnrounded svc quantity uom_qty result_uom).1 with
    | error e => rw [hres] at hx; exact absurd hx (by simp [Except.map])
    | ok v =>
      rw [hres] at hx
      simp only [Except.map, Except.ok.injEq] at hx
      obtain ⟨k, hk⟩ := applyRounding_integral c.round_method hm' v
      exact ⟨k, by rw [← hx, hk]⟩
  · intro hm
    simp only [UomConverter.convert, UomConverter.convertCore, hm]
    cases hres : (c.convertUnrounded svc quantity uom_qty result_uom).1 with
    | error e => rfl
    | ok v => rfl

/-- Witness for C10: with the ceil method the returned value is an
integer, and with method "none" the unrounded value is returned. -/
theorem convert_rounding_integrality_witness :
    (∃ k : ℤ,
      applyRounding RoundMethod.ceil ((101:ℚ) * flourLine.coefficient + flourLine.constant)
        = (k : ℚ)) ∧
    ((flourEggs RoundMethod.none).convert idSvc 101 Option.none Option.none
      = ((flourEggs RoundMethod.none).convertUnrounded idSvc 101 Option.none Option.none).1) :=
  ⟨(convert_rounding_integrality idSvc (flourEggs RoundMethod.ceil) 101
      Option.none Option.none).1 (Or.inl rfl)
      (applyRounding RoundMethod.ceil ((101:ℚ) * flourLine.coefficient + flourLine.constant))
      rfl,
   (convert_rounding_integrality idSvc (flourEggs RoundMethod.none) 101
      Option.none Option.none).2 rfl⟩

/-- C4: the spec's flour→eggs examples on a converter with a single
scale line `max_qty = 100000`, `coefficient = 0.01`, `constant = 0` and
no unit arguments: with ceil, `convert 101 = 2` and `convert 100 = 1`;
with floor, `convert 101 = 1`; with normal rounding, `convert 149.9 = 1`
and `convert 150.1 = 2`. -/
theorem convert_flour_eggs_examples :
    (flourEggs RoundMethod.ceil).convert idSvc 101 Option.none Option.none
        = Except.ok 2 ∧
    (flourEggs RoundMethod.ceil).convert idSvc 100 Option.none Option.none
        = Except.ok 1 ∧
    (flourEggs RoundMethod.floor).convert idSvc 101 Option.none Option.none
        = Except.ok 1 ∧
    (flourEggs RoundMethod.round).convert idSvc (1499/10) Option.none Option.none
        = Except.ok 1 ∧
    (flourEggs RoundMethod.round).convert idSvc (1501/10) Option.none Option.none
        = Except.ok 2 := by
  refine ⟨?_, ?_, ?_, ?_, ?_⟩
  · rw [flourEggs_convert_eval RoundMethod.ceil 101 (by norm_num)]
    have hv : (101:ℚ) * (1/100) + 0 = 101/100 := by norm_num
    have hc : ⌈(101:ℚ)/100⌉ = 2 := by
      rw [Int.ceil_eq_iff]
      norm_num
    simp only [applyRounding, hv, hc]
    norm_num
  · rw [flourEggs_convert_eval RoundMethod.ceil 100 (by norm_num)]
    have hv : (100:ℚ) * (1/100) + 0 = 1 := by norm_num
    simp only [applyRounding, hv, Int.ceil_one]
    norm_num
  · rw [flourEggs_convert_eval RoundMethod.floor 101 (by norm_num)]
    have hv : (101:ℚ) * (1/100) + 0 = 101/100 := by norm_num
    have hf : ⌊(101:ℚ)/100⌋ = 1 := by norm_num [Int.floor_eq_iff]
    simp only [applyRounding, hv, hf]
    norm_num
  · rw [flourEggs_convert_eval RoundMethod.round (1499/10) (by norm_num)]
    have hv : (1499:ℚ)/10 * (1/100) + 0 = 1499/1000 := by norm_num
    have hf : ⌊(1499:ℚ)/1000⌋ = 1 := by norm_num [Int.floor_eq_iff]
    have hp : pyRound (1499/1000) = 1 := by
      simp only [pyRound, hf]
      rw [if_pos (by norm_num)]
    simp only [applyRounding, hv, hp]
    norm_num
  · rw [flourEggs_convert_eval RoundMethod.round (1501/10) (by norm_num)]
    have hv : (1501:ℚ)/10 * (1/100) + 0 = 1501/1000 := by norm_num
    have hf : ⌊(1501:ℚ)/1000⌋ = 1 := by norm_num [Int.floor_eq_iff]
    have hp : pyRound (1501/1000) = 2 := by
      simp only [pyRound, hf]
      rw [if_neg (by norm_num), if_pos (by norm_num)]
      decide
    simp only [applyRounding, hv, hp]
    norm_num
